import Mathlib

/-!
Verification development for the camera-set lifecycle management of the
`Scene` component (scene/__init__.py): index bookkeeping across the
train/test/candidate partitions, deterministic shuffling, incremental camera
ingestion ("inflation"), and the candidate-set protocol.

The Python state is embedded shallowly: the scale-keyed camera dictionaries
become association lists over exact rational keys, the identifier universe
`all_train_set` becomes a `Finset ℕ`, the active sequence `train_idxs` a
`List ℕ`, and each fallible method returns `Except SceneErr _` mirroring the
exception it can raise.
-/

/-- Realized camera record, restricted to the fields the index bookkeeping
reads or writes (`uid`, `image_name`); pose/intrinsics/image data never
influence the properties studied here. -/
structure Camera where
  uid : ℕ
  image_name : String
  deriving Repr, DecidableEq, Inhabited

/-- Resolution scales are Python-dict keys compared by exact float equality
(`1.0` by default); modelled as exact rationals, with `1` standing
for `1.0`. -/
abbrev Scale : Type := ℚ

/-- Exception outcomes of the Scene methods. -/
inductive SceneErr where
  | valueError
  | keyError
  | indexError
  | assertionError
  | zeroDivisionError
  deriving Repr, DecidableEq

/-- Lookup in a Python dict modelled as an association list. -/
def lookupScale : List (Scale × List Camera) → Scale → Option (List Camera)
  | [], _ => none
  | p :: rest, k => if p.1 = k then some p.2 else lookupScale rest k

/-- Python dict assignment `d[k] = v`: replace the entry when the key is
present, insert at the end otherwise (Python dicts keep unique keys and
preserve insertion order). -/
def dictSet : List (Scale × List Camera) → Scale → List Camera → List (Scale × List Camera)
  | [], k, v => [(k, v)]
  | p :: rest, k, v => if p.1 = k then (k, v) :: rest else p :: dictSet rest k v

/-- Linear congruential step standing in for the stdlib pseudo-random
generator; only determinism in the seed matters for the claims. -/
@[irreducible] def lcgStep (st : ℕ) : ℕ := (1103515245 * st + 12345) % 4294967296

/-- Remove and return the element at position `k` (`k` is always in bounds at
the call sites). -/
def pickOut {α : Type} [Inhabited α] : List α → ℕ → α × List α
  | [], _ => (default, [])
  | x :: xs, 0 => (x, xs)
  | x :: xs, k + 1 =>
    let p := pickOut xs k
    (p.1, x :: p.2)

/-- Seeded extraction-style shuffle loop. -/
def shuffleGo {α : Type} [Inhabited α] : ℕ → ℕ → List α → List α → List α
  | _, 0, l, acc => acc.reverse ++ l
  | _, _ + 1, [], acc => acc.reverse
  | st, fuel + 1, x :: xs, acc =>
    shuffleGo (lcgStep st) fuel
      (pickOut (x :: xs) (lcgStep st % (x :: xs).length)).2
      ((pickOut (x :: xs) (lcgStep st % (x :: xs).length)).1 :: acc)

/-- Model of `random.Random(seed).shuffle(l)` (and, with the entropy of the
process-wide generator as `seed`, of `random.shuffle(l)`): stdlib
collaborators, documented to be a permutation that is a deterministic
function of the generator state and the input; the exact permutation
produced is irrelevant to every claim. -/
def detShuffle {α : Type} [Inhabited α] (seed : ℕ) (l : List α) : List α :=
  shuffleGo seed l.length l []

/-- State of a `Scene`: scale-keyed train/test camera pools, the identifier
universe `all_train_set`, the active identifier sequence `train_idxs`, and
the optional candidate predicate. `test_idxs` is first assigned by
`update_cameras` (absent before), hence the `Option`. -/
structure Scene where
  train_cameras : List (Scale × List Camera)
  test_cameras : List (Scale × List Camera)
  all_train_set : Finset ℕ
  train_idxs : List ℕ
  test_idxs : Option (List ℕ)
  candidate_views_filter : Option (ℕ → Bool)

/-- Index-bookkeeping part of `Scene.__init__` (lines 45-99 of
scene/__init__.py).  The realized camera lists come from the external loader
and `cameraList_from_camInfos`; `testEntropy` stands for the state of the
process-wide `random` generator that the unseeded `random.shuffle` of the
test list consumes, while the train permutation uses the fresh seeded
generator `random.Random(42)`.  The train info list is realized unshuffled
(the shuffle only permutes `train_idxs`). -/
def Scene.mkInit (trainCams testCams : List Camera) (shuffle : Bool)
    (scales : List Scale) (testEntropy : ℕ) : Scene :=
  let n := trainCams.length
  { train_cameras := scales.map (fun sc => (sc, trainCams))
    test_cameras := scales.map
      (fun sc => (sc, if shuffle then detShuffle testEntropy testCams else testCams))
    all_train_set := Finset.range n
    train_idxs := if shuffle then detShuffle 42 (List.range n) else List.range n
    test_idxs := none
    candidate_views_filter := none }

/-- Model of `Scene.getTrainCameras` (lines 105-106): returns the whole
scale-keyed pool; `KeyError` when the scale was never realized. -/
def Scene.getTrainCameras (s : Scene) (scale : Scale) : Except SceneErr (List Camera) :=
  match lookupScale s.train_cameras scale with
  | none => .error .keyError
  | some cams => .ok cams

/-- Model of `Scene.getTestCameras` (lines 111-112). -/
def Scene.getTestCameras (s : Scene) (scale : Scale) : Except SceneErr (List Camera) :=
  match lookupScale s.test_cameras scale with
  | none => .error .keyError
  | some cams => .ok cams

/-- Executable model of Python `sorted(list(t))` for a set of naturals: the
ascending duplicate-free enumeration of `t` (proved equal to the canonical
`Finset.sort` in `pySorted_eq_sort` below). -/
def pySorted (t : Finset ℕ) : List ℕ :=
  (List.range (t.max.getD 0 + 1)).filter (fun x => decide (x ∈ t))

/-- Model of `Scene.get_candidate_set` (lines 117-123):
`sorted(list(all_train_set - set(train_idxs)))`, then the optional
predicate `candidate_views_filter`. -/
def Scene.get_candidate_set (s : Scene) : List ℕ :=
  let candidate_set := pySorted (s.all_train_set \ s.train_idxs.toFinset)
  match s.candidate_views_filter with
  | none => candidate_set
  | some f => candidate_set.filter f

/-- Model of the comprehension `[l[i] for i in idxs]` with Python
`IndexError` semantics (identifiers here are never negative). -/
def pyIndexList {α : Type} (l : List α) : List ℕ → Except SceneErr (List α)
  | [] => .ok []
  | i :: rest =>
    match l[i]? with
    | none => .error .indexError
    | some x => (pyIndexList l rest).map (fun ys => x :: ys)

/-- Model of `Scene.getCandidateCameras` (lines 125-128): indexes the
scale's pool at each candidate position (the dict is only touched when the
candidate set is non-empty, as in the Python comprehension). -/
def Scene.getCandidateCameras (s : Scene) (scale : Scale) : Except SceneErr (List Camera) :=
  match s.get_candidate_set with
  | [] => .ok []
  | _ :: _ =>
    match lookupScale s.train_cameras scale with
    | none => .error .keyError
    | some cams => pyIndexList cams s.get_candidate_set

/-- Model of `Scene.add_camera` (lines 148-169): `ValueError` when the scale
is unrealized; otherwise appends the camera to the pool, inserts `uid` into
the universe, appends `uid` to the active sequence, and returns `uid`. -/
def Scene.add_camera (s : Scene) (camera : Camera) (scale : Scale) :
    Except SceneErr (Scene × ℕ) :=
  match lookupScale s.train_cameras scale with
  | none => .error .valueError
  | some cams =>
    let idx := camera.uid
    .ok ({ s with
      train_cameras := dictSet s.train_cameras scale (cams ++ [camera])
      all_train_set := insert idx s.all_train_set
      train_idxs := s.train_idxs ++ [idx] }, idx)

/-- Body of the `for scale in self.train_cameras.keys()` loop of
`Scene.load_inflated_cameras` (lines 136-146).  The manifest argument is the
list of camera records that the external `load_cam_info` realizes from the
JSON entries; `max` of an empty Python set raises `ValueError`, `idx % 0`
raises `ZeroDivisionError`. -/
def inflateKey (manifest : List Camera) (inflate_skip : ℕ) (s : Scene) (sc : Scale) :
    Except SceneErr Scene :=
  if sc = 1 then
    if s.all_train_set = ∅ then .error .valueError
    else
      let base := s.all_train_set.max.getD 0
      if manifest.length ≠ 0 ∧ inflate_skip = 0 then .error .zeroDivisionError
      else
        let load_idxs := (List.range manifest.length).filter (fun idx => idx % inflate_skip == 0)
        let inflated_cams := load_idxs.filterMap (fun i => manifest[i]?)
        match lookupScale s.train_cameras sc with
        | none => .error .keyError
        | some cams =>
          .ok { s with
            all_train_set := s.all_train_set ∪
              ((List.range load_idxs.length).map (fun i => base + 1 + i)).toFinset
            train_cameras := dictSet s.train_cameras sc (cams ++ inflated_cams) }
  else .error .assertionError

/-- Key loop of `Scene.load_inflated_cameras`: the key list is a snapshot
taken before the first iteration (value updates never change the key set). -/
def inflateGo (manifest : List Camera) (inflate_skip : ℕ) :
    List Scale → Scene → Except SceneErr Scene
  | [], s => .ok s
  | sc :: rest, s =>
    match inflateKey manifest inflate_skip s sc with
    | .error e => .error e
    | .ok s' => inflateGo manifest inflate_skip rest s'

/-- Model of `Scene.load_inflated_cameras` (lines 130-146). -/
def Scene.load_inflated_cameras (s : Scene) (manifest : List Camera) (inflate_skip : ℕ) :
    Except SceneErr Scene :=
  inflateGo manifest inflate_skip (s.train_cameras.map Prod.fst) s

/-- The two shapes of `train_indices` accepted by `update_cameras`
(`isinstance(train_indices, list)` dispatch); a name map (dict) is modelled
by the list of its values (the image names), whose length is the dict's
size `len(train_indices)`. -/
inductive TrainSel where
  | byIndex : List ℕ → TrainSel
  | byName : List String → TrainSel

/-- Position of the last occurrence of `i` in `sel`. -/
def lastPos : List ℕ → ℕ → Option ℕ
  | [], _ => none
  | x :: xs, i =>
    match lastPos xs i with
    | some p => some (p + 1)
    | none => if x = i then some 0 else none

/-- The in-place field assignment `cam.uid = new_idx`. -/
def setUid (c : Camera) (u : ℕ) : Camera := { c with uid := u }

/-- Final `uid` of the (shared, mutable) camera object at position `i` of the
prior pool after the two re-indexing loops of `update_cameras`: within each
loop the last write wins, and the test loop runs after the train loop. -/
def finalUid (oldCams : List Camera) (trainSel testSel : List ℕ) (i : ℕ) : ℕ :=
  match lastPos testSel i with
  | some p => p
  | none =>
    match lastPos trainSel i with
    | some p => p
    | none => ((oldCams[i]?).map Camera.uid).getD 0

/-- Model of `Scene.update_cameras` (lines 171-195): `KeyError` when the
scale is unrealized; in the name-map case `matched_idx` collects `cam.uid`
of every pool camera whose `image_name` is among the map's values; either
index list is then used to index the prior pool (`IndexError` when out of
range); both partitions are re-indexed positionally (writes to shared
objects, captured by `finalUid`); finally `train_idxs` is reset to
`range(len(train_indices))` — the length of the *input* list or dict — and
`test_idxs` to `range(len(test_indices))`. -/
def Scene.update_cameras (s : Scene) (train_indices : TrainSel) (test_indices : List ℕ)
    (scale : Scale) : Except SceneErr Scene :=
  match lookupScale s.train_cameras scale with
  | none => .error .keyError
  | some all_cameras =>
    let tIdxs : List ℕ :=
      match train_indices with
      | .byIndex l => l
      | .byName vals => all_cameras.filterMap
          (fun cam => if vals.contains cam.image_name then some cam.uid else none)
    if ∀ i ∈ tIdxs, i < all_cameras.length then
      if ∀ i ∈ test_indices, i < all_cameras.length then
        .ok { s with
          train_cameras := dictSet s.train_cameras scale
            (tIdxs.map (fun i =>
              setUid (all_cameras.getD i default) (finalUid all_cameras tIdxs test_indices i)))
          test_cameras := dictSet s.test_cameras scale
            (test_indices.map (fun i =>
              setUid (all_cameras.getD i default) (finalUid all_cameras tIdxs test_indices i)))
          train_idxs := List.range (match train_indices with
            | .byIndex l => l.length
            | .byName vals => vals.length)
          test_idxs := some (List.range test_indices.length) }
      else .error .indexError
    else .error .indexError

/-- How `Scene.__init__` initializes the representation (lines 35-43,
58-70 and 91-97): which snapshot iteration was resolved, whether the
fresh-construction artifacts were written, and where the representation's
initial state comes from. -/
inductive InitSource where
  | fromPointCloud
  | fromSnapshot (iter : ℤ)
  deriving Repr, DecidableEq

/-- Observable construction-path effects of `Scene.__init__`. -/
structure InitEffects where
  loaded_iter : Option ℤ
  wroteInputPly : Bool
  wroteCamerasJson : Bool
  source : InitSource
  deriving Repr, DecidableEq

/-- Python truthiness of the optional integer `load_iteration` /
`loaded_iter`: `None` and `0` are falsy. -/
def pyTruthy : Option ℤ → Bool
  | none => false
  | some i => i != 0

/-- Model of the construction-path dispatch of `Scene.__init__`
(lines 35-43: `if load_iteration:` with the `-1` resolution through the
external `searchForMaxIteration`, modelled by `maxIterOnDisk`; lines 58-70:
`if not self.loaded_iter:` writes `input.ply` and `cameras.json`;
lines 91-97: `if self.loaded_iter:` loads the snapshot, else initializes
from the raw point cloud). -/
def sceneInitEffects (load_iteration : Option ℤ) (maxIterOnDisk : ℤ) : InitEffects :=
  let loaded_iter : Option ℤ :=
    if pyTruthy load_iteration then
      if load_iteration = some (-1) then some maxIterOnDisk else load_iteration
    else none
  { loaded_iter := loaded_iter
    wroteInputPly := !(pyTruthy loaded_iter)
    wroteCamerasJson := !(pyTruthy loaded_iter)
    source := if pyTruthy loaded_iter then .fromSnapshot (loaded_iter.getD 0)
              else .fromPointCloud }

/-- Extract the final state of a successful state-returning call (the
fallback is never reached at the concrete inputs below). -/
def okD (fallback : Scene) : Except SceneErr Scene → Scene
  | .ok s => s
  | .error _ => fallback

/-- Extract the final state of a successful `add_camera` call. -/
def okSceneD (fallback : Scene) : Except SceneErr (Scene × ℕ) → Scene
  | .ok p => p.1
  | .error _ => fallback

/-- Identifiers (`uid` fields) of a returned camera list, as a set. -/
def camUids (l : List Camera) : Finset ℕ :=
  (l.map Camera.uid).toFinset

/-- States reachable from a fresh construction by any sequence of
`add_camera`, `update_cameras` and `load_inflated_cameras` calls. -/
inductive Reachable : Scene → Prop where
  | init : ∀ tc xc sh scs e, Reachable (Scene.mkInit tc xc sh scs e)
  | add : ∀ s cam sc s' r, Reachable s →
      s.add_camera cam sc = .ok (s', r) → Reachable s'
  | update : ∀ s tsel xsel sc s', Reachable s →
      s.update_cameras tsel xsel sc = .ok s' → Reachable s'
  | inflate : ∀ s man k s', Reachable s →
      s.load_inflated_cameras man k = .ok s' → Reachable s'

/-- States reachable from a fresh construction using only `add_camera` and
`load_inflated_cameras` (no `update_cameras`). -/
inductive ReachableAI : Scene → Prop where
  | init : ∀ tc xc sh scs e, ReachableAI (Scene.mkInit tc xc sh scs e)
  | add : ∀ s cam sc s' r, ReachableAI s →
      s.add_camera cam sc = .ok (s', r) → ReachableAI s'
  | inflate : ∀ s man k s', ReachableAI s →
      s.load_inflated_cameras man k = .ok s' → ReachableAI s'

/-! ### Concrete states used by the counterexamples and witnesses -/

/-- Fresh one-camera scene at scale 1.0 (no shuffling). -/
def exC1init : Scene := Scene.mkInit [⟨0, "c0"⟩] [] false [1] 0

/-- `exC1init` after inflating a one-entry manifest with stride 1. -/
def exC1post : Scene := okD exC1init (exC1init.load_inflated_cameras [⟨7, "m0"⟩] 1)

/-- Fresh one-camera scene. -/
def exC2init : Scene := Scene.mkInit [⟨0, "c0"⟩] [] false [1] 0

/-- `exC2init` after `add_camera` of a camera with `uid = 5`. -/
def exC2mid : Scene := okSceneD exC2init (exC2init.add_camera ⟨5, "c5"⟩ 1)

/-- `exC2mid` after `update_cameras([0, 1], [], 1.0)`. -/
def exC2post : Scene := okD exC2mid (exC2mid.update_cameras (.byIndex [0, 1]) [] 1)

/-- Fresh one-camera scene, then `add_camera` + `load_inflated_cameras`
(exercises both invariant-preserving operations for the C2 witness). -/
def exC2wMid : Scene := okSceneD exC2init (exC2init.add_camera ⟨3, "w"⟩ 1)

/-- Witness state for the amended C2 invariant. -/
def exC2wPost : Scene := okD exC2wMid (exC2wMid.load_inflated_cameras [⟨9, "w2"⟩] 2)

/-- Fresh one-camera scene whose single active identifier is `0`. -/
def exC3init : Scene := Scene.mkInit [⟨0, "c0"⟩] [] false [1] 0

/-- `exC3init` after `add_camera` of a second camera that reuses `uid = 0`. -/
def exC3post : Scene := okSceneD exC3init (exC3init.add_camera ⟨0, "dup"⟩ 1)

/-- Fresh two-camera scene for the C5 witness. -/
def exC5init : Scene := Scene.mkInit [⟨0, "c0"⟩, ⟨1, "c1"⟩] [] false [1] 0

/-- Fresh one-camera scene for C6. -/
def exC6init : Scene := Scene.mkInit [⟨0, "c0"⟩] [] false [1] 0

/-- A 30-entry inflated-camera manifest (realized records). -/
def exC6manifest : List Camera := (List.range 30).map (fun i => ⟨100 + i, ""⟩)

/-- `exC6init` after inflating the 30-entry manifest with stride 3. -/
def exC6post : Scene := okD exC6init (exC6init.load_inflated_cameras exC6manifest 3)

/-- Six distinct cameras with positional uids. -/
def exC7cams : List Camera :=
  [⟨0, "im0"⟩, ⟨1, "im1"⟩, ⟨2, "im2"⟩, ⟨3, "im3"⟩, ⟨4, "im4"⟩, ⟨5, "im5"⟩]

/-- Fresh six-camera scene for the C7 witness. -/
def exC7init : Scene := Scene.mkInit exC7cams [] false [1] 0

/-- The camera records a stride-3 pass realizes from a 30-entry manifest
(entries at indices 0, 3, ..., 27). -/
def inflatedOf (manifest : List Camera) : List Camera :=
  ((List.range 30).filter (fun idx => idx % 3 == 0)).filterMap (fun i => manifest[i]?)

/-- The contiguous block of ten fresh identifiers starting at `m + 1`. -/
def freshIds (m : ℕ) : Finset ℕ :=
  ((List.range 10).map (fun i => m + 1 + i)).toFinset

/-- Fresh empty scene for C8. -/
def exC8init : Scene := Scene.mkInit [] [] false [1] 0

/-- `exC8init` after adding a camera named "a" with `uid = 1`. -/
def exC8mid1 : Scene := okSceneD exC8init (exC8init.add_camera ⟨1, "a"⟩ 1)

/-- `exC8mid1` after adding a camera named "b" with `uid = 0`; the pool's
`uid`s are now non-positional, as `add_camera` permits. -/
def exC8mid2 : Scene := okSceneD exC8mid1 (exC8mid1.add_camera ⟨0, "b"⟩ 1)

/-- `exC8mid2` after the name-based `update_cameras({k: "a"}, [], 1.0)`. -/
def exC8post : Scene := okD exC8mid2 (exC8mid2.update_cameras (.byName ["a"]) [] 1)

/-! ### Helper lemmas -/

/-- Membership in the executable `sorted` model. -/
theorem mem_pySorted {t : Finset ℕ} {x : ℕ} : x ∈ pySorted t ↔ x ∈ t := by
  unfold pySorted
  simp only [List.mem_filter, List.mem_range, decide_eq_true_eq]
  constructor
  · exact fun h => h.2
  · intro hx
    refine ⟨?_, hx⟩
    obtain ⟨m, hm⟩ := Finset.max_of_mem hx
    have h := Finset.le_max hx
    rw [hm] at h
    rw [hm]
    exact Nat.lt_succ_of_le (WithBot.coe_le_coe.mp h)

/-- The executable `sorted` model is strictly ascending. -/
theorem pySorted_sorted (t : Finset ℕ) : List.Sorted (· < ·) (pySorted t) :=
  (List.sorted_lt_range _).filter _

/-- The executable `sorted` model has no duplicates. -/
theorem pySorted_nodup (t : Finset ℕ) : (pySorted t).Nodup :=
  (pySorted_sorted t).nodup

/-- Sanity: the executable `sorted` model agrees with the canonical
`Finset.sort`. -/
theorem pySorted_eq_sort (t : Finset ℕ) : pySorted t = t.sort (· ≤ ·) := by
  refine List.eq_of_perm_of_sorted ?_ (pySorted_sorted t).le_of_lt (t.sort_sorted _)
  refine (List.perm_ext_iff_of_nodup (pySorted_nodup t) (t.sort_nodup _)).mpr ?_
  intro a
  rw [mem_pySorted, Finset.mem_sort]

/-- Dict lookup after assignment of the same key. -/
theorem lookupScale_dictSet_self :
    ∀ (d : List (Scale × List Camera)) (k : Scale) (v : List Camera),
      lookupScale (dictSet d k v) k = some v
  | [], k, v => by simp [dictSet, lookupScale]
  | p :: rest, k, v => by
    by_cases hp : p.1 = k
    · simp [dictSet, lookupScale, hp]
    · simp [dictSet, lookupScale, hp, lookupScale_dictSet_self rest k v]

/-- The extracted element of `pickOut` comes from the list. -/
theorem pickOut_fst_mem {α : Type} [Inhabited α] :
    ∀ (l : List α) (k : ℕ), k < l.length → (pickOut l k).1 ∈ l
  | x :: xs, 0, _ => List.mem_cons_self x xs
  | x :: xs, k + 1, h =>
    List.mem_cons_of_mem x (pickOut_fst_mem xs k (Nat.lt_of_succ_lt_succ h))

/-- The remainder of `pickOut` is drawn from the list. -/
theorem pickOut_snd_subset {α : Type} [Inhabited α] :
    ∀ (l : List α) (k : ℕ) (y : α), y ∈ (pickOut l k).2 → y ∈ l
  | [], _, y, h => by simp [pickOut] at h
  | x :: xs, 0, y, h => List.mem_cons_of_mem x h
  | x :: xs, k + 1, y, h => by
    have h' : y ∈ x :: (pickOut xs k).2 := h
    rcases List.mem_cons.mp h' with h1 | h2
    · exact h1 ▸ List.mem_cons_self x xs
    · exact List.mem_cons_of_mem x (pickOut_snd_subset xs k y h2)

/-- Every element produced by the shuffle loop came from the input or the
accumulator. -/
theorem shuffleGo_mem {α : Type} [Inhabited α] :
    ∀ (fuel st : ℕ) (l acc : List α) (x : α),
      x ∈ shuffleGo st fuel l acc → x ∈ l ∨ x ∈ acc
  | 0, st, l, acc, x, h => by
    rw [shuffleGo] at h
    rcases List.mem_append.mp h with h1 | h2
    · exact Or.inr (List.mem_reverse.mp h1)
    · exact Or.inl h2
  | fuel + 1, st, [], acc, x, h => by
    rw [shuffleGo] at h
    exact Or.inr (List.mem_reverse.mp h)
  | fuel + 1, st, a :: as, acc, x, h => by
    rw [shuffleGo] at h
    rcases shuffleGo_mem fuel _ _ _ x h with h1 | h2
    · exact Or.inl (pickOut_snd_subset _ _ x h1)
    · rcases List.mem_cons.mp h2 with h3 | h4
      · exact Or.inl (h3 ▸ pickOut_fst_mem (a :: as) _
          (Nat.mod_lt _ (Nat.succ_pos as.length)))
      · exact Or.inr h4

/-- The shuffle model permutes within the input list (membership form). -/
theorem detShuffle_mem {α : Type} [Inhabited α] {seed : ℕ} {l : List α} {x : α}
    (h : x ∈ detShuffle seed l) : x ∈ l := by
  unfold detShuffle at h
  rcases shuffleGo_mem l.length seed l [] x h with h1 | h2
  · exact h1
  · simp at h2

/-- Inversion of a successful `add_camera` call. -/
theorem add_camera_ok {s : Scene} {cam : Camera} {sc : Scale} {s' : Scene} {r : ℕ}
    (h : s.add_camera cam sc = .ok (s', r)) :
    s'.train_idxs = s.train_idxs ++ [cam.uid] ∧
      s'.all_train_set = insert cam.uid s.all_train_set := by
  unfold Scene.add_camera at h
  cases hl : lookupScale s.train_cameras sc with
  | none => rw [hl] at h; simp at h
  | some cams =>
    rw [hl] at h
    simp only [Except.ok.injEq, Prod.mk.injEq] at h
    obtain ⟨hs, _⟩ := h
    subst hs
    exact ⟨rfl, rfl⟩

/-- Inversion of one successful iteration of the inflation loop: the active
sequence is untouched and the universe only grows. -/
theorem inflateKey_ok {man : List Camera} {k : ℕ} {s : Scene} {sc : Scale} {s' : Scene}
    (h : inflateKey man k s sc = .ok s') :
    s'.train_idxs = s.train_idxs ∧ s.all_train_set ⊆ s'.all_train_set := by
  unfold inflateKey at h
  by_cases h1 : sc = 1
  · rw [if_pos h1] at h
    by_cases h0 : s.all_train_set = ∅
    · rw [if_pos h0] at h; simp at h
    · rw [if_neg h0] at h
      by_cases h2 : man.length ≠ 0 ∧ k = 0
      · rw [if_pos h2] at h; simp at h
      · rw [if_neg h2] at h
        cases hl : lookupScale s.train_cameras sc with
        | none => rw [hl] at h; simp at h
        | some cams =>
          rw [hl] at h
          simp only [Except.ok.injEq] at h
          subst h
          exact ⟨rfl, Finset.subset_union_left⟩
  · rw [if_neg h1] at h; simp at h

/-- Inversion of the whole inflation loop. -/
theorem inflateGo_ok {man : List Camera} {k : ℕ} :
    ∀ (keys : List Scale) (s s' : Scene), inflateGo man k keys s = .ok s' →
      s'.train_idxs = s.train_idxs ∧ s.all_train_set ⊆ s'.all_train_set
  | [], s, s', h => by
    rw [inflateGo] at h
    simp only [Except.ok.injEq] at h
    subst h
    exact ⟨rfl, Finset.Subset.refl _⟩
  | sc :: rest, s, s', h => by
    rw [inflateGo] at h
    cases hk : inflateKey man k s sc with
    | error e => rw [hk] at h; simp at h
    | ok s1 =>
      rw [hk] at h
      obtain ⟨h1, h2⟩ := inflateKey_ok hk
      obtain ⟨h3, h4⟩ := inflateGo_ok rest s1 s' h
      exact ⟨h3.trans h1, h2.trans h4⟩

/-- Inversion of a successful `load_inflated_cameras` call. -/
theorem load_inflated_ok {s : Scene} {man : List Camera} {k : ℕ} {s' : Scene}
    (h : s.load_inflated_cameras man k = .ok s') :
    s'.train_idxs = s.train_idxs ∧ s.all_train_set ⊆ s'.all_train_set :=
  inflateGo_ok _ s s' h

/-- Indexing a list at positions that are all in bounds keeps the count. -/
theorem length_filterMap_getElem {α : Type} (l : List α) :
    ∀ idxs : List ℕ, (∀ i ∈ idxs, i < l.length) →
      (idxs.filterMap (fun i => l[i]?)).length = idxs.length
  | [], _ => rfl
  | i :: rest, h => by
    have hi : i < l.length := h i (List.mem_cons_self i rest)
    have hrest : ∀ j ∈ rest, j < l.length := fun j hj => h j (List.mem_cons_of_mem i hj)
    rw [List.filterMap_cons, List.getElem?_eq_getElem hi]
    simp [length_filterMap_getElem l rest hrest]

/-- Elements of a set with `max = some m` are bounded by `m`. -/
theorem mem_le_of_max_eq {t : Finset ℕ} {m a : ℕ} (hm : t.max = some m) (ha : a ∈ t) :
    a ≤ m := by
  have h := Finset.le_max ha
  rw [hm] at h
  exact WithBot.coe_le_coe.mp h

/-- Characterization of membership in `get_candidate_set`: exactly the
universe elements not currently active that pass the optional filter. -/
theorem mem_get_candidate_set (s : Scene) (x : ℕ) :
    x ∈ s.get_candidate_set ↔
      (x ∈ s.all_train_set ∧ x ∉ s.train_idxs ∧
        ∀ f, s.candidate_views_filter = some f → f x = true) := by
  unfold Scene.get_candidate_set
  cases hf : s.candidate_views_filter with
  | none =>
    simp only [mem_pySorted, Finset.mem_sdiff, List.mem_toFinset]
    constructor
    · rintro ⟨h1, h2⟩
      exact ⟨h1, h2, fun f hf' => Option.noConfusion hf'⟩
    · rintro ⟨h1, h2, _⟩
      exact ⟨h1, h2⟩
  | some f =>
    simp only [List.mem_filter, mem_pySorted, Finset.mem_sdiff, List.mem_toFinset,
      decide_eq_true_eq]
    constructor
    · rintro ⟨⟨h1, h2⟩, h3⟩
      refine ⟨h1, h2, fun g hg => ?_⟩
      injection hg with hg'
      exact hg' ▸ h3
    · rintro ⟨h1, h2, h3⟩
      exact ⟨⟨h1, h2⟩, h3 f rfl⟩

/-! ### Claim theorems -/

/-- C1, counterexample. In the reachable state `exC1post` — a fresh
one-camera scene after `load_inflated_cameras` on a one-entry manifest with
stride 1 — the camera returned by `getCandidateCameras(1.0)` also appears in
the list returned by `getTrainCameras(1.0)` (which returns the whole
scale-keyed pool), so the two uid sets are not disjoint. -/
theorem C1_counterexample :
    Reachable exC1post ∧
      exC1post.getCandidateCameras 1 = .ok [⟨7, "m0"⟩] ∧
      exC1post.getTrainCameras 1 = .ok [⟨0, "c0"⟩, ⟨7, "m0"⟩] ∧
      ¬ Disjoint (camUids [⟨7, "m0"⟩]) (camUids [⟨0, "c0"⟩, ⟨7, "m0"⟩]) := by
  refine ⟨?_, rfl, rfl, by decide⟩
  exact Reachable.inflate exC1init [⟨7, "m0"⟩] 1 exC1post (Reachable.init _ _ _ _ _) rfl

/-- C1, amended. The disjointness holds at the identifier-bookkeeping level:
in every Scene state (hence in every reachable one) the candidate identifier
sequence `get_candidate_set()` is disjoint from the active identifier
sequence `train_idxs`; the uid-level disjointness of the original claim
fails because `getTrainCameras` returns the whole pool. -/
theorem C1_amended_candidate_disjoint_active (s : Scene) :
    Disjoint (s.get_candidate_set).toFinset s.train_idxs.toFinset := by
  rw [Finset.disjoint_left]
  intro a ha hb
  rw [List.mem_toFinset] at ha hb
  exact ((mem_get_candidate_set s a).mp ha).2.1 hb

/-- C4. `get_candidate_set` is the strictly ascending enumeration of
`all_train_set` minus `train_idxs`, narrowed by `candidate_views_filter`
when that is set; as a pure function of the state, two consecutive calls
with no intervening mutation agree. -/
theorem C4_candidate_set_sorted_pure (s : Scene) :
    List.Sorted (· < ·) s.get_candidate_set ∧
      (∀ x, x ∈ s.get_candidate_set ↔
        (x ∈ s.all_train_set ∧ x ∉ s.train_idxs ∧
          ∀ f, s.candidate_views_filter = some f → f x = true)) ∧
      s.get_candidate_set = s.get_candidate_set := by
  refine ⟨?_, fun x => mem_get_candidate_set s x, rfl⟩
  unfold Scene.get_candidate_set
  cases s.candidate_views_filter with
  | none => exact pySorted_sorted _
  | some f => exact (pySorted_sorted _).filter _

/-- C3, counterexample. In the fresh state `exC3init` the identifier 0 is
already active, yet `add_camera` of a camera with `uid = 0` at the realized
scale 1.0 succeeds — no DuplicateActivation-style error — and the active
sequence ends up holding the identifier twice. -/
theorem C3_counterexample :
    Reachable exC3init ∧ (0 : ℕ) ∈ exC3init.train_idxs ∧
      (⟨0, "dup"⟩ : Camera).uid = 0 ∧
      exC3init.add_camera ⟨0, "dup"⟩ 1 = .ok (exC3post, 0) ∧
      exC3post.train_idxs = [0, 0] :=
  ⟨Reachable.init _ _ _ _ _, by decide, rfl, rfl, by decide⟩

/-- C3, amended. `add_camera` performs no duplicate-activation check: at a
realized scale it succeeds even when the camera's identifier is already
active, appending the camera to the pool and the identifier to `train_idxs`
(which then holds a duplicate), and returns `cam.uid`; only an unrealized
scale raises (ValueError). -/
theorem C3_amended_add_camera_no_duplicate_check (s : Scene) (cam : Camera) (scale : Scale)
    (cams : List Camera) (h : lookupScale s.train_cameras scale = some cams)
    (hdup : cam.uid ∈ s.train_idxs) :
    s.add_camera cam scale = .ok ({ s with
        train_cameras := dictSet s.train_cameras scale (cams ++ [cam])
        all_train_set := insert cam.uid s.all_train_set
        train_idxs := s.train_idxs ++ [cam.uid] }, cam.uid) ∧
      ¬ (s.train_idxs ++ [cam.uid]).Nodup := by
  constructor
  · unfold Scene.add_camera
    rw [h]
  · intro hnd
    rw [List.nodup_append] at hnd
    exact hnd.2.2 hdup (List.mem_singleton.mpr rfl)

/-- Witness for the amended C3 at the concrete state `exC3init`. -/
theorem C3_amended_witness :
    exC3init.add_camera ⟨0, "dup"⟩ 1 = .ok ({ exC3init with
        train_cameras := dictSet exC3init.train_cameras 1 ([⟨0, "c0"⟩] ++ [⟨0, "dup"⟩])
        all_train_set := insert 0 exC3init.all_train_set
        train_idxs := exC3init.train_idxs ++ [0] }, 0) ∧
      ¬ (exC3init.train_idxs ++ [0]).Nodup :=
  C3_amended_add_camera_no_duplicate_check exC3init ⟨0, "dup"⟩ 1 [⟨0, "c0"⟩] rfl (by decide)

/-- C9. With `shuffle = True` the active permutation is drawn from the
generator freshly seeded with 42, so two constructions from the same
dataset agree on `train_idxs`, on the realized train pools and on the
universe, whatever entropy the unseeded test-list shuffle consumes; only
the test pools may differ between the two runs. -/
theorem C9_deterministic_train_shuffle (trainCams testCams : List Camera)
    (scales : List Scale) (e1 e2 : ℕ) :
    (Scene.mkInit trainCams testCams true scales e1).train_idxs =
        (Scene.mkInit trainCams testCams true scales e2).train_idxs ∧
      (Scene.mkInit trainCams testCams true scales e1).train_cameras =
        (Scene.mkInit trainCams testCams true scales e2).train_cameras ∧
      (Scene.mkInit trainCams testCams true scales e1).all_train_set =
        (Scene.mkInit trainCams testCams true scales e2).all_train_set :=
  ⟨rfl, rfl, rfl⟩

/-- C10. `load_iteration = 0` is falsy in `if load_iteration:`, so the
constructor resolves `loaded_iter = None` and takes the fresh path — the
point cloud is copied to `input.ply`, the `cameras.json` manifest is
written, and the representation is initialized from the raw point cloud —
and, more generally, no construction ever loads a snapshot labelled
iteration 0 (even `load_iteration = -1` with 0 as the maximum on disk falls
back to the fresh path). -/
theorem C10_load_iteration_zero_takes_fresh_path (m : ℤ) (li : Option ℤ) :
    sceneInitEffects (some 0) m =
        { loaded_iter := none, wroteInputPly := true, wroteCamerasJson := true
          source := .fromPointCloud } ∧
      (sceneInitEffects li m).source ≠ InitSource.fromSnapshot 0 := by
  refine ⟨rfl, ?_⟩
  unfold sceneInitEffects
  cases li with
  | none => simp [pyTruthy]
  | some i =>
    by_cases hi : i = 0
    · subst hi
      simp [pyTruthy]
    · by_cases hneg : i = -1
      · subst hneg
        by_cases hm : m = 0
        · subst hm
          simp [pyTruthy]
        · simp [pyTruthy, hm]
      · simp [pyTruthy, hi, hneg]

/-- C5. At a realized scale, `add_camera` appends exactly one camera to the
scale's pool — so `getTrainCameras(scale)` grows in length by exactly 1 —
grows the universe `all_train_set` by at most one element (by zero exactly
when `cam.uid` already belonged to it), and returns `cam.uid`. -/
theorem C5_add_camera_effects (s : Scene) (cam : Camera) (scale : Scale)
    (cams : List Camera) (h : lookupScale s.train_cameras scale = some cams) :
    s.add_camera cam scale = .ok ({ s with
        train_cameras := dictSet s.train_cameras scale (cams ++ [cam])
        all_train_set := insert cam.uid s.all_train_set
        train_idxs := s.train_idxs ++ [cam.uid] }, cam.uid) ∧
      s.getTrainCameras scale = .ok cams ∧
      lookupScale (dictSet s.train_cameras scale (cams ++ [cam])) scale =
        some (cams ++ [cam]) ∧
      (cams ++ [cam]).length = cams.length + 1 ∧
      (insert cam.uid s.all_train_set).card ≤ s.all_train_set.card + 1 ∧
      (cam.uid ∈ s.all_train_set →
        (insert cam.uid s.all_train_set).card = s.all_train_set.card) := by
  refine ⟨?_, ?_, lookupScale_dictSet_self _ _ _, by simp, Finset.card_insert_le _ _, ?_⟩
  · unfold Scene.add_camera
    rw [h]
  · unfold Scene.getTrainCameras
    rw [h]
  · intro hmem
    rw [Finset.insert_eq_self.mpr hmem]

/-- Witness for C5 at the concrete two-camera state `exC5init`, adding a
camera whose `uid = 0` already belongs to the universe. -/
theorem C5_add_camera_effects_witness :
    exC5init.add_camera ⟨0, "again"⟩ 1 = .ok ({ exC5init with
        train_cameras := dictSet exC5init.train_cameras 1
          ([⟨0, "c0"⟩, ⟨1, "c1"⟩] ++ [⟨0, "again"⟩])
        all_train_set := insert 0 exC5init.all_train_set
        train_idxs := exC5init.train_idxs ++ [0] }, 0) ∧
      exC5init.getTrainCameras 1 = .ok [⟨0, "c0"⟩, ⟨1, "c1"⟩] ∧
      lookupScale (dictSet exC5init.train_cameras 1
          ([⟨0, "c0"⟩, ⟨1, "c1"⟩] ++ [⟨0, "again"⟩])) 1 =
        some ([⟨0, "c0"⟩, ⟨1, "c1"⟩] ++ [⟨0, "again"⟩]) ∧
      (([⟨0, "c0"⟩, ⟨1, "c1"⟩] ++ [⟨0, "again"⟩] : List Camera)).length =
        ([⟨0, "c0"⟩, ⟨1, "c1"⟩] : List Camera).length + 1 ∧
      (insert 0 exC5init.all_train_set).card ≤ exC5init.all_train_set.card + 1 ∧
      ((0 : ℕ) ∈ exC5init.all_train_set →
        (insert 0 exC5init.all_train_set).card = exC5init.all_train_set.card) :=
  C5_add_camera_effects exC5init ⟨0, "again"⟩ 1 [⟨0, "c0"⟩, ⟨1, "c1"⟩] rfl

/-- C2, counterexample. From a fresh one-camera scene, `add_camera` with
`uid = 5` and then `update_cameras([0, 1], [], 1.0)` reach a state whose
active sequence contains the identifier 1 while the universe is `{0, 5}`:
the invariant `train_idxs ⊆ all_train_set` fails, because `update_cameras`
resets `train_idxs` to `range(len(train_indices))`. -/
theorem C2_counterexample :
    Reachable exC2post ∧ 1 ∈ exC2post.train_idxs ∧ 1 ∉ exC2post.all_train_set := by
  refine ⟨?_, by decide, by decide⟩
  exact Reachable.update exC2mid (.byIndex [0, 1]) [] 1 exC2post
    (Reachable.add exC2init ⟨5, "c5"⟩ 1 exC2mid 5 (Reachable.init _ _ _ _ _) rfl) rfl

/-- C2, amended. The invariant `train_idxs ⊆ all_train_set` holds in every
state reachable from a fresh construction via `add_camera` and
`load_inflated_cameras`; `update_cameras` does not preserve it in general
(see the counterexample). -/
theorem C2_amended_active_subset_universe (s : Scene) (h : ReachableAI s) :
    s.train_idxs.toFinset ⊆ s.all_train_set := by
  induction h with
  | init tc xc sh scs e =>
    intro x hx
    rw [List.mem_toFinset] at hx
    have hx' : x ∈ (if sh then detShuffle 42 (List.range tc.length)
        else List.range tc.length) := hx
    show x ∈ Finset.range tc.length
    rw [Finset.mem_range]
    cases sh with
    | true =>
      rw [if_pos rfl] at hx'
      exact List.mem_range.mp (detShuffle_mem hx')
    | false =>
      rw [if_neg (by simp)] at hx'
      exact List.mem_range.mp hx'
  | add s cam sc s' r hr hstep ih =>
    obtain ⟨h1, h2⟩ := add_camera_ok hstep
    intro x hx
    rw [List.mem_toFinset, h1] at hx
    rw [h2, Finset.mem_insert]
    rcases List.mem_append.mp hx with h3 | h4
    · exact Or.inr (ih (List.mem_toFinset.mpr h3))
    · exact Or.inl (List.mem_singleton.mp h4)
  | inflate s man k s' hr hstep ih =>
    obtain ⟨h1, h2⟩ := load_inflated_ok hstep
    intro x hx
    rw [List.mem_toFinset, h1] at hx
    exact h2 (ih (List.mem_toFinset.mpr hx))

/-- Witness for the amended C2 at the concrete state `exC2wPost`, reached
by one `add_camera` and one `load_inflated_cameras` call. -/
theorem C2_amended_witness :
    exC2wPost.train_idxs.toFinset ⊆ exC2wPost.all_train_set :=
  C2_amended_active_subset_universe exC2wPost
    (ReachableAI.inflate exC2wMid [⟨9, "w2"⟩] 2 exC2wPost
      (ReachableAI.add exC2init ⟨3, "w"⟩ 1 exC2wMid 3 (ReachableAI.init _ _ _ _ _) rfl)
      rfl)

/-- C8 (code bug). At the reachable state `exC8mid2`, whose scale-1.0 pool
holds the camera named "a" with `uid = 1` followed by the camera named "b"
with `uid = 0`, the name-based `update_cameras({k: "a"}, [], 1.0)` indexes
the pool by the stale `cam.uid` instead of taking the matching record, so
the new train partition consists of the camera named "b" — while the
records whose image name is a value of the mapping form exactly the
one-element list named "a". -/
theorem C8_name_selection_bug :
    Reachable exC8mid2 ∧
      exC8mid2.update_cameras (.byName ["a"]) [] 1 = .ok exC8post ∧
      (lookupScale exC8post.train_cameras 1).map (List.map Camera.image_name) =
        some ["b"] ∧
      (((lookupScale exC8mid2.train_cameras 1).getD []).filter
          (fun c => (["a"] : List String).contains c.image_name)).map
        Camera.image_name = ["a"] := by
  refine ⟨?_, rfl, by decide, by decide⟩
  exact Reachable.add exC8mid1 ⟨0, "b"⟩ 1 exC8mid2 0
    (Reachable.add exC8init ⟨1, "a"⟩ 1 exC8mid1 1 (Reachable.init _ _ _ _ _) rfl) rfl

/-- Inversion of a successful positional `update_cameras` call with all
indices in bounds. -/
theorem update_cameras_byIndex_ok (s : Scene) (idxs testIdxs : List ℕ) (sc : Scale)
    (cams : List Camera) (h : lookupScale s.train_cameras sc = some cams)
    (hP : ∀ i ∈ idxs, i < cams.length) (hQ : ∀ i ∈ testIdxs, i < cams.length) :
    s.update_cameras (.byIndex idxs) testIdxs sc = .ok { s with
      train_cameras := dictSet s.train_cameras sc
        (idxs.map (fun i => setUid (cams.getD i default) (finalUid cams idxs testIdxs i)))
      test_cameras := dictSet s.test_cameras sc
        (testIdxs.map (fun i => setUid (cams.getD i default) (finalUid cams idxs testIdxs i)))
      train_idxs := List.range idxs.length
      test_idxs := some (List.range testIdxs.length) } := by
  simp only [Scene.update_cameras, h]
  rw [if_pos hP, if_pos hQ]

/-- C7. On a scale-1.0 pool with at least six cameras,
`update_cameras([2, 0, 1], [5], 1.0)` replaces the train partition by the
prior cameras at positions 2, 0 and 1, in that order, with uids reassigned
to 0, 1 and 2 respectively; the prior position-5 camera becomes the sole
test camera with uid 0; both index sequences are reset positionally. -/
theorem C7_update_cameras_reindex (s : Scene) (cams : List Camera)
    (htc : lookupScale s.train_cameras 1 = some cams) (hlen : 6 ≤ cams.length) :
    s.update_cameras (.byIndex [2, 0, 1]) [5] 1 = .ok { s with
      train_cameras := dictSet s.train_cameras 1
        [setUid cams[2] 0, setUid cams[0] 1, setUid cams[1] 2]
      test_cameras := dictSet s.test_cameras 1 [setUid cams[5] 0]
      train_idxs := [0, 1, 2]
      test_idxs := some [0] } := by
  have hP : ∀ i ∈ ([2, 0, 1] : List ℕ), i < cams.length := by
    intro i hi
    simp only [List.mem_cons, List.not_mem_nil, or_false] at hi
    rcases hi with rfl | rfl | rfl <;> omega
  have hQ : ∀ i ∈ ([5] : List ℕ), i < cams.length := by
    intro i hi
    simp only [List.mem_cons, List.not_mem_nil, or_false] at hi
    subst hi
    omega
  rw [update_cameras_byIndex_ok s [2, 0, 1] [5] 1 cams htc hP hQ]
  simp only [List.map_cons, List.map_nil]
  rw [List.getD_eq_getElem cams default (show 2 < cams.length by omega),
    List.getD_eq_getElem cams default (show 0 < cams.length by omega),
    List.getD_eq_getElem cams default (show 1 < cams.length by omega),
    List.getD_eq_getElem cams default (show 5 < cams.length by omega)]
  rfl

/-- Witness for C7 at the concrete six-camera state `exC7init`. -/
theorem C7_update_cameras_reindex_witness :
    exC7init.update_cameras (.byIndex [2, 0, 1]) [5] 1 = .ok { exC7init with
      train_cameras := dictSet exC7init.train_cameras 1
        [⟨0, "im2"⟩, ⟨1, "im0"⟩, ⟨2, "im1"⟩]
      test_cameras := dictSet exC7init.test_cameras 1 [⟨0, "im5"⟩]
      train_idxs := [0, 1, 2]
      test_idxs := some [0] } :=
  C7_update_cameras_reindex exC7init exC7cams rfl (by decide)

/-- C6, counterexample. On the reachable one-camera state `exC6init`,
inflating a 30-entry manifest with stride 3 leaves `getTrainCameras(1.0)`
with 11 cameras instead of the unchanged 1 that the claim asserts: the
inflated cameras are appended to the scale-1.0 pool. -/
theorem C6_counterexample :
    Reachable exC6post ∧
      exC6init.load_inflated_cameras exC6manifest 3 = .ok exC6post ∧
      (exC6init.getTrainCameras 1).map List.length = .ok 1 ∧
      (exC6post.getTrainCameras 1).map List.length = .ok 11 := by
  refine ⟨?_, rfl, rfl, rfl⟩
  exact Reachable.inflate exC6init exC6manifest 3 exC6post (Reachable.init _ _ _ _ _) rfl

/-- C6, amended. On a state whose only realized scale is 1.0, whose universe
is non-empty with maximum `m`, whose active sequence respects the invariant
`train_idxs ⊆ all_train_set`, and with no candidate filter set, inflating a
30-entry manifest with stride 3 succeeds and: adds exactly the ten fresh
identifiers `m+1, ..., m+10` (disjoint from the prior universe) to the
universe; leaves the active sequence unchanged; grows the scale-1.0 pool —
hence `getTrainCameras(1.0)` — by exactly the ten realized cameras (the
claim's "length unchanged" is what fails, see the counterexample); and all
ten fresh identifiers appear in `get_candidate_set()` afterwards. -/
theorem C6_amended_inflation_effects (s : Scene) (cams manifest : List Camera) (m : ℕ)
    (htc : s.train_cameras = [(1, cams)])
    (hmax : s.all_train_set.max = some m)
    (hfil : s.candidate_views_filter = none)
    (hinv : s.train_idxs.toFinset ⊆ s.all_train_set)
    (hman : manifest.length = 30) :
    s.load_inflated_cameras manifest 3 = .ok { s with
        all_train_set := s.all_train_set ∪ freshIds m
        train_cameras := [(1, cams ++ inflatedOf manifest)] } ∧
      Disjoint (freshIds m) s.all_train_set ∧
      (freshIds m).card = 10 ∧
      ({ s with
          all_train_set := s.all_train_set ∪ freshIds m
          train_cameras := [(1, cams ++ inflatedOf manifest)] } : Scene).train_idxs =
        s.train_idxs ∧
      (cams ++ inflatedOf manifest).length = cams.length + 10 ∧
      freshIds m ⊆ ({ s with
          all_train_set := s.all_train_set ∪ freshIds m
          train_cameras := [(1, cams ++ inflatedOf manifest)] } : Scene).get_candidate_set.toFinset := by
  have hne : s.all_train_set ≠ ∅ := by
    intro h0
    rw [h0] at hmax
    simp [Finset.max_empty] at hmax
  have hlen10 : ((List.range 30).filter (fun idx => idx % 3 == 0)).length = 10 := by decide
  have hbound : ∀ i ∈ (List.range 30).filter (fun idx => idx % 3 == 0),
      i < manifest.length := by
    intro i hi
    rw [hman]
    exact List.mem_range.mp (List.mem_filter.mp hi).1
  have hinflen : (inflatedOf manifest).length = 10 := by
    unfold inflatedOf
    rw [length_filterMap_getElem manifest _ hbound]
    exact hlen10
  have hfreshmem : ∀ a, a ∈ freshIds m ↔ ∃ i < 10, a = m + 1 + i := by
    intro a
    unfold freshIds
    simp only [List.mem_toFinset, List.mem_map, List.mem_range]
    constructor
    · rintro ⟨i, hi, rfl⟩
      exact ⟨i, hi, rfl⟩
    · rintro ⟨i, hi, rfl⟩
      exact ⟨i, hi, rfl⟩
  have hdisj : Disjoint (freshIds m) s.all_train_set := by
    rw [Finset.disjoint_left]
    intro a ha hb
    obtain ⟨i, _, rfl⟩ := (hfreshmem a).mp ha
    have := mem_le_of_max_eq hmax hb
    omega
  refine ⟨?_, hdisj, ?_, rfl, ?_, ?_⟩
  · unfold Scene.load_inflated_cameras
    rw [htc]
    show inflateGo manifest 3 [1] s = _
    have hk : inflateKey manifest 3 s 1 = .ok { s with
        all_train_set := s.all_train_set ∪ freshIds m
        train_cameras := [(1, cams ++ inflatedOf manifest)] } := by
      unfold inflateKey
      rw [if_pos rfl, if_neg hne]
      simp only [hmax, Option.getD_some, hman, htc]
      rw [if_neg (by simp)]
      simp only [lookupScale, if_pos rfl, hlen10]
      unfold freshIds inflatedOf
      simp only [dictSet, if_pos rfl, if_true]
    rw [inflateGo, hk]
    rfl
  · unfold freshIds
    rw [List.toFinset_card_of_nodup, List.length_map, List.length_range]
    exact (List.nodup_range 10).map (fun a b hab => by omega)
  · rw [List.length_append, hinflen]
  · intro a ha
    rw [List.mem_toFinset, mem_get_candidate_set]
    obtain ⟨i, hi, rfl⟩ := (hfreshmem a).mp ha
    refine ⟨?_, ?_, ?_⟩
    · show m + 1 + i ∈ s.all_train_set ∪ freshIds m
      exact Finset.mem_union_right _ ((hfreshmem _).mpr ⟨i, hi, rfl⟩)
    · show m + 1 + i ∉ s.train_idxs
      intro hmem
      have : m + 1 + i ∈ s.all_train_set := hinv (List.mem_toFinset.mpr hmem)
      have := mem_le_of_max_eq hmax this
      omega
    · intro f hf
      rw [show ({ s with
          all_train_set := s.all_train_set ∪ freshIds m
          train_cameras := [(1, cams ++ inflatedOf manifest)] } : Scene).candidate_views_filter
        = s.candidate_views_filter from rfl, hfil] at hf
      exact Option.noConfusion hf

/-- Witness for the amended C6 at the concrete one-camera state `exC6init`
with the 30-entry manifest `exC6manifest`. -/
theorem C6_amended_witness :
    exC6init.load_inflated_cameras exC6manifest 3 = .ok { exC6init with
        all_train_set := exC6init.all_train_set ∪ freshIds 0
        train_cameras := [(1, [⟨0, "c0"⟩] ++ inflatedOf exC6manifest)] } ∧
      Disjoint (freshIds 0) exC6init.all_train_set ∧
      (freshIds 0).card = 10 ∧
      ({ exC6init with
          all_train_set := exC6init.all_train_set ∪ freshIds 0
          train_cameras := [(1, [⟨0, "c0"⟩] ++ inflatedOf exC6manifest)] } : Scene).train_idxs =
        exC6init.train_idxs ∧
      (([⟨0, "c0"⟩] : List Camera) ++ inflatedOf exC6manifest).length =
        ([⟨0, "c0"⟩] : List Camera).length + 10 ∧
      freshIds 0 ⊆ ({ exC6init with
          all_train_set := exC6init.all_train_set ∪ freshIds 0
          train_cameras := [(1, [⟨0, "c0"⟩] ++ inflatedOf exC6manifest)] } : Scene).get_candidate_set.toFinset :=
  C6_amended_inflation_effects exC6init [⟨0, "c0"⟩] exC6manifest 0 rfl (by decide) rfl
    (by decide) (by decide)
